import Mathlib

set_option linter.unusedVariables false

/-!
Shallow embedding of the USB test harness in `src/sim/test-eptri.py`
(class `UsbTest` and the helpers around it), together with a model of the
packet codec it imports from `valentyusb.usbcore.utils.packet`.

Conventions:
* Python byte values are `Nat`; differential line values are `Bool` pairs
  (the cocotb signals are driven with 0/1 only in this harness).
* Simulated time is an explicit tick index `Nat`; a cocotb signal that is
  read over time becomes a function `Nat → Bool` from tick to value.
* A Python function that can raise `TestFailure` becomes a function into
  `Except`, with one error constructor per distinct `raise` site.
-/

/-- USB packet identifiers used by the harness (`valentyusb.usbcore.pid.PID`). -/
inductive PID
  | SETUP
  | OUT
  | IN
  | SOF
  | DATA0
  | DATA1
  | ACK
  | NAK
  | STALL
deriving DecidableEq, Repr

/-- DATA0/DATA1 alternation step, from the loop tails of `transaction_data_out`
(lines 313-316) and `transaction_data_in` (lines 327-330):
`if datax == PID.DATA0: datax = PID.DATA1 else: datax = PID.DATA0`. -/
def toggle (datax : PID) : PID :=
  if datax = PID.DATA0 then PID.DATA1 else PID.DATA0

/-- Accumulator loop implementing the `zip_longest` chunking of `grouper`:
`cur` is the chunk currently being filled. -/
def grouperAux {α : Type} (n : Nat) (pad : α) : List α → List α → List (List α)
  | [], cur => if cur.length = 0 then [] else [cur ++ List.replicate (n - cur.length) pad]
  | x :: xs, cur =>
    if cur.length + 1 = n then (cur ++ [x]) :: grouperAux n pad xs []
    else grouperAux n pad xs (cur ++ [x])

/-- Model of `grouper(n, iterable, pad)` (lines 18-25): group a list into
chunks of `n`, right-padding the final chunk with `pad`.  With `n = 0`,
`zip_longest` over an empty tuple of iterators yields nothing. -/
def grouper {α : Type} (n : Nat) (l : List α) (pad : α) : List (List α) :=
  if n = 0 then [] else grouperAux n pad l []

/-- Wishbone register writes issued by `send_data` (lines 284-288). -/
inductive RegWrite
  | epin_data (b : Nat)
  | epin_epno (ep : Nat)
deriving DecidableEq, Repr

/-- Model of `send_data(token, ep, data)` (lines 284-288): write every byte of
`data` to `usb_epin_data`, then arm the endpoint by writing `ep` to
`usb_epin_epno`.  The `token` argument is unused, as in the source. -/
def send_data (token : PID) (ep : Nat) (data : List Nat) : List RegWrite :=
  data.map RegWrite.epin_data ++ [RegWrite.epin_epno ep]

/-- Loop body of `transaction_data_out` (lines 306-316): for each chunk, the
host sends `host_send(PID.OUT, datax, addr, epnum, chunk)` and the register
client checks `expect_data(epnum, list(chunk))`; `datax` then alternates.
Each list entry is the pair `(datax, chunk)` of one iteration. -/
def data_out_go (datax : PID) : List (List Nat) → List (PID × List Nat)
  | [] => []
  | chunk :: rest => (datax, chunk) :: data_out_go (toggle datax) rest

/-- Model of the per-chunk iterations of `transaction_data_out(addr, ep, data,
chunk_size)` (lines 299-316): chunk `data` with `grouper(chunk_size, data,
pad=0)` and start the DATA0/DATA1 toggle at `PID.DATA0` (line 302). -/
def transaction_data_out_iters (data : List Nat) (chunk_size : Nat) :
    List (PID × List Nat) :=
  data_out_go PID.DATA0 (grouper chunk_size data 0)

/-- Loop body of `transaction_data_in` (lines 322-330): for each chunk, a
`host_recv(PID.IN, datax, addr, epnum, chunk)` expectation is forked, and the
device side performs `send_data(datax, epnum, data)` — note the third
argument is the whole `data`, not `chunk`.  Each list entry is the triple
`(datax, chunk expected by the host, register writes performed)`. -/
def data_in_go (ep : Nat) (data : List Nat) (datax : PID) :
    List (List Nat) → List (PID × List Nat × List RegWrite)
  | [] => []
  | chunk :: rest =>
    (datax, chunk, send_data datax ep data) :: data_in_go ep data (toggle datax) rest

/-- Model of the per-chunk iterations of `transaction_data_in(addr, ep, data,
chunk_size)` (lines 318-330): chunking and toggle start as in the OUT case. -/
def transaction_data_in_iters (ep : Nat) (data : List Nat) (chunk_size : Nat) :
    List (PID × List Nat × List RegWrite) :=
  data_in_go ep data PID.DATA0 (grouper chunk_size data 0)

/-- Data PID of the Setup stage: `transaction_setup` (line 295) sends
`host_send(PID.SETUP, PID.DATA0, addr, epnum, data)`. -/
def transaction_setup_data01 : PID := PID.DATA0

/-- Data PID of the Status stage: `transaction_status_in` (line 336) sends
`host_send(PID.IN, PID.DATA1, addr, epnum, [])`. -/
def transaction_status_in_data01 : PID := PID.DATA1

/-- Transactions observable at the USB level during `control_transfer_out`:
the Setup stage's SETUP+DATA exchange, one OUT+DATA exchange per data-stage
chunk, and the zero-length Status IN exchange. -/
inductive Txn
  | setup (addr : Nat) (data01 : PID) (data : List Nat)
  | dataOut (addr : Nat) (data01 : PID) (chunk : List Nat)
  | statusIn (addr : Nat) (data01 : PID) (data : List Nat)
deriving DecidableEq, Repr

/-- Model of `control_transfer_out(addr, setup_data, descriptor_data)`
(lines 339-356) as the list of transactions it performs: the Setup stage
(`transaction_setup`, DATA0), the data stage (`transaction_data_out` with the
default `chunk_size=8`), then the Status stage (`transaction_status_in`,
DATA1, empty payload). -/
def control_transfer_out (addr : Nat) (setup_data descriptor_data : List Nat) :
    List Txn :=
  Txn.setup addr transaction_setup_data01 setup_data
    :: ((transaction_data_out_iters descriptor_data 8).map
          (fun pc => Txn.dataOut addr pc.1 pc.2)
        ++ [Txn.statusIn addr transaction_status_in_data01 []])

/-- Decoder `current()` inside `host_expect_packet` (lines 157-169): map the
sampled `(usb_d_p, usb_d_n)` pair to a line-state symbol.  The source's
final `raise TestFailure("Unrecognized dut values")` branch is unreachable
here because the two signals are modelled as booleans. -/
def observeSymbol (dp dn : Bool) : Char :=
  match dp, dn with
  | false, false => '_'
  | true, true => '1'
  | true, false => 'J'
  | false, true => 'K'

/-- Symbol-to-line mapping of `_host_send_packet` (lines 98-118): each symbol
of a wrapped packet sets the `(usb_d_p, usb_d_n)` pair; an unknown symbol
raises `TestFailure("Unknown value")`, modelled as `none`. -/
def driveSymbol (v : Char) : Option (Bool × Bool) :=
  if v = '0' ∨ v = '_' then some (false, false)
  else if v = '1' then some (true, true)
  else if v = '-' ∨ v = 'I' then some (true, false)
  else if v = 'J' then some (true, false)
  else if v = 'K' then some (false, true)
  else none

/-- Turnaround budget `bit_time_max = 12.5` (line 184). -/
def bit_time_max : ℚ := 12.5

/-- Turnaround budget `bit_time_acceptable = 7.5` (line 185). -/
def bit_time_acceptable : ℚ := 7.5

/-- Outcome of the turnaround classification (lines 186-191): fatal
`TestFailure`, non-fatal `warn` log, or nominal `info` log. -/
inductive TurnaroundClass
  | nominal
  | warn
  | fatal
deriving DecidableEq, Repr

/-- Model of the turnaround classification in `host_expect_packet`
(lines 183-191): `bit_times` clk48 ticks are converted to bit-times by
dividing by 4 and compared against the two thresholds, fatal first. -/
def classify_turnaround (bit_times : Nat) : TurnaroundClass :=
  if (bit_times : ℚ) / 4 > bit_time_max then TurnaroundClass.fatal
  else if (bit_times : ℚ) / 4 > bit_time_acceptable then TurnaroundClass.warn
  else TurnaroundClass.nominal

/-- Wait phase of `host_expect_packet` (lines 171-181): the loop polls
`usb_tx_en` at ticks 0..99, breaking at the first asserted sample with
`bit_times` equal to that tick.  If the loop exhausts, simulated time is at
tick 100 and `tx` holds the cocotb signal handle (not a snapshot), so the
`if tx != 1` check at line 180 re-reads the live `usb_tx_en` once more at
tick 100: only if that read is also low does `"No packet started"` fire;
otherwise the wait succeeds with `bit_times = 100`. -/
def wait_tx_start (txen : Nat → Bool) : Option Nat :=
  match (List.range 100).find? txen with
  | some i => some i
  | none => if txen 100 then some 100 else none

/-- Recording loop of `host_expect_packet` (lines 193-199), with remaining
iteration `fuel` (512 at the call site): record the decoded symbol of the
current tick `t`, advance one tick, and stop as soon as `usb_tx_en` reads 0. -/
def read_transmission (dp dn txen : Nat → Bool) : Nat → Nat → List Char
  | _, 0 => []
  | t, fuel + 1 =>
    observeSymbol (dp t) (dn t) ::
      (if txen (t + 1) then read_transmission dp dn txen (t + 1) fuel else [])

/-- Failure modes of `host_expect_packet` up to the end of the recording loop
(lines 171-201), one per `raise TestFailure` site. -/
inductive HostExpectErr
  | noTransmission
  | turnaroundTimeout
  | packetDidntFinish
deriving DecidableEq, Repr

/-- Model of `host_expect_packet` (lines 153-201) up to and including the
`"Packet didn't finish"` check; on success it returns the recorded symbol
sequence (the subsequent `pp_packet` comparison of lines 203-206 consumes
that sequence and is outside the claims modelled here).  The signals
`usb_tx_en`, `usb_d_p`, `usb_d_n` are given as functions of the tick index;
the `tx` variable holds the live signal handle, so the wait phase may
accept a start at tick 100 (see `wait_tx_start`), the wait leaves simulated
time at tick `bit_times`, and after the recording loop `tx == 1` at line
200 re-reads the live `usb_tx_en` signal, i.e. its value at tick
`bit_times + length of the recording`. -/
def host_expect_packet (txen dp dn : Nat → Bool) : Except HostExpectErr (List Char) :=
  match wait_tx_start txen with
  | none => Except.error HostExpectErr.noTransmission
  | some bit_times =>
    if (bit_times : ℚ) / 4 > bit_time_max then
      Except.error HostExpectErr.turnaroundTimeout
    else
      let result := read_transmission dp dn txen bit_times 512
      if txen (bit_times + result.length) then
        Except.error HostExpectErr.packetDidntFinish
      else
        Except.ok result

/-- Bits of a byte, least-significant first (USB wire order). -/
def byteToBits (b : Nat) : List Bool :=
  (List.range 8).map b.testBit

/-- Bits of a byte sequence, each byte least-significant-bit first. -/
def bytesToBits (data : List Nat) : List Bool :=
  data.flatMap byteToBits

/-- Modelled from the spec: one bit step of the USB CRC-16 (`crc16` lives in
`valentyusb.usbcore.utils.packet`, which is not under src/).  Standard USB
polynomial 0x8005 in reflected form 0xA001, shift right per input bit. -/
def crc16_feed (crc : Nat) (d : Bool) : Nat :=
  if d = decide (crc % 2 = 1) then crc / 2 else (crc / 2) ^^^ 0xA001

/-- Modelled from the spec: `crc16(data)` from `valentyusb.usbcore.utils.packet`
(not under src/) — "computed over the data payload using the standard USB
polynomial; returned as two bytes appended LSB-first."  Init 0xFFFF, final
complement, residue as two bytes low byte first. -/
def crc16 (data : List Nat) : List Nat :=
  let c := ((bytesToBits data).foldl crc16_feed 0xFFFF) ^^^ 0xFFFF
  [c % 256, (c / 256) % 256]

/-- Modelled from the spec: one bit step of the USB CRC-5 (polynomial 0x05,
reflected form 0x14), for `crc5` of `valentyusb.usbcore.utils.packet`
(not under src/). -/
def crc5_feed (crc : Nat) (d : Bool) : Nat :=
  if d = decide (crc % 2 = 1) then crc / 2 else (crc / 2) ^^^ 0x14

/-- Modelled from the spec: `crc5` over an 11-bit token payload — "returned as
the 5-bit complemented residue appended LSB-first after the payload."
Init 0x1F, final complement. -/
def crc5 (bits : List Bool) : List Bool :=
  let c := (bits.foldl crc5_feed 0x1F) ^^^ 0x1F
  (List.range 5).map c.testBit

/-- Modelled from the spec: bit-stuffing loop — "after every six consecutive
`1` bits in the NRZI pre-encoded bit stream, insert a `0`".  `ones` counts
the current run of 1 bits. -/
def bitstuffAux : List Bool → Nat → List Bool
  | [], _ => []
  | b :: bs, ones =>
    if b then
      if ones = 5 then true :: false :: bitstuffAux bs 0
      else true :: bitstuffAux bs (ones + 1)
    else false :: bitstuffAux bs 0

/-- Modelled from the spec: bit stuffing of a whole bit stream. -/
def bitstuff (bits : List Bool) : List Bool :=
  bitstuffAux bits 0

/-- Modelled from the spec: NRZI encoding — "a `1` bit holds the previous line
symbol, a `0` bit toggles between `J` and `K`", stateful across the packet,
seeded with the idle symbol. -/
def nrziFrom (last : Char) : List Bool → List Char
  | [] => []
  | b :: bs =>
    let cur := if b then last else if last = 'J' then 'K' else 'J'
    cur :: nrziFrom cur bs

/-- Modelled from the spec: the sync field "effectively encodes a fixed 8-bit
sync pattern `00000001` before stuffing" (NRZI from idle gives `KJKJKJKK`). -/
def syncBits : List Bool :=
  [false, false, false, false, false, false, false, true]

/-- Each symbol is repeated four times: "Packet gets multiplied by 4x so we
can send using the usb48 clock instead of the usb12 clock" (lines 93-94). -/
def expand4 (c : Char) : List Char :=
  [c, c, c, c]

/-- Modelled from the spec: `wrap_packet` from `valentyusb.usbcore.utils.packet`
(not under src/) — "sync field + stuffed/NRZI-encoded PID+payload+CRC +
2-bit SE0 End-Of-Packet + trailing idle (`J`)", at 4 ticks per bit-time.
`body` is the bit stream of PID byte, payload and CRC. -/
def wrap_packet (body : List Bool) : List Char :=
  ((nrziFrom 'J' (bitstuff (syncBits ++ body))) ++ ['_', '_', 'J']).flatMap expand4

/-- Four-bit code of each PID (USB 2.0 table 8-1). -/
def pidCode : PID → Nat
  | PID.OUT => 0x1
  | PID.IN => 0x9
  | PID.SOF => 0x5
  | PID.SETUP => 0xD
  | PID.DATA0 => 0x3
  | PID.DATA1 => 0xB
  | PID.ACK => 0x2
  | PID.NAK => 0xA
  | PID.STALL => 0xE

/-- PID byte: the 4-bit code with its 4-bit complement appended — "Each PID
has a fixed 4-bit complement appended when framed, giving an 8-bit PID
byte" (spec §3). -/
def pidByteVal (p : PID) : Nat :=
  pidCode p + ((pidCode p ^^^ 0xF) * 16)

/-- Construction failures of the packet builders (spec §4.1). -/
inductive BuildErr
  | invalidPid
  | fieldOverflow
deriving DecidableEq, Repr

/-- Modelled from the spec: `token_packet(pid, address, endpoint)` from
`valentyusb.usbcore.utils.packet` (not under src/) — validates the PID class
and field widths (address ≤ 7 bits, endpoint ≤ 4 bits), then frames the PID
byte, the 11-bit payload and its CRC5 as a bit stream. -/
def token_packet (pid : PID) (addr ep : Nat) : Except BuildErr (List Bool) :=
  if pid = PID.OUT ∨ pid = PID.IN ∨ pid = PID.SETUP ∨ pid = PID.SOF then
    if addr < 128 ∧ ep < 16 then
      let payload := (List.range 7).map addr.testBit ++ (List.range 4).map ep.testBit
      Except.ok (byteToBits (pidByteVal pid) ++ payload ++ crc5 payload)
    else Except.error BuildErr.fieldOverflow
  else Except.error BuildErr.invalidPid

/-- Modelled from the spec: `data_packet(pid, data)` — PID ∈ {DATA0, DATA1},
payload bytes followed by their CRC16. -/
def data_packet (pid : PID) (data : List Nat) : Except BuildErr (List Bool) :=
  if pid = PID.DATA0 ∨ pid = PID.DATA1 then
    Except.ok (byteToBits (pidByteVal pid) ++ bytesToBits data ++ bytesToBits (crc16 data))
  else Except.error BuildErr.invalidPid

/-- Modelled from the spec: `handshake_packet(pid)` — PID ∈ {ACK, NAK, STALL},
no payload. -/
def handshake_packet (pid : PID) : Except BuildErr (List Bool) :=
  if pid = PID.ACK ∨ pid = PID.NAK ∨ pid = PID.STALL then
    Except.ok (byteToBits (pidByteVal pid))
  else Except.error BuildErr.invalidPid

/-- Modelled from the spec: `sof_packet(frame_number)` — frame number ≤ 11
bits, framed like a token with CRC5. -/
def sof_packet (frame : Nat) : Except BuildErr (List Bool) :=
  if frame < 2048 then
    let payload := (List.range 11).map frame.testBit
    Except.ok (byteToBits (pidByteVal PID.SOF) ++ payload ++ crc5 payload)
  else Except.error BuildErr.fieldOverflow

/-- Failure modes of `_host_send_packet` (lines 89-118): the end-in-J
assertion of line 96, and the unknown-symbol `TestFailure` of line 118. -/
inductive SendErr
  | endNotJ
  | unknownSymbol
deriving DecidableEq, Repr

/-- Model of `_host_send_packet(packet)` (lines 89-119): wrap the packet,
assert that the wrapped sequence ends in `'J'`
(`assertEqual('J', packet[-1], ...)`, line 96), then drive each symbol onto
the differential pair, one tick per symbol. -/
def host_send_packet_model (body : List Bool) : Except SendErr (List (Bool × Bool)) :=
  let packet := wrap_packet body
  if packet.getLast? = some 'J' then
    match packet.mapM driveSymbol with
    | none => Except.error SendErr.unknownSymbol
    | some driven => Except.ok driven
  else Except.error SendErr.endNotJ

/-- Failure modes of the tail of `expect_setup` (lines 240-246) and
`expect_data` (lines 271-277), one per `raise`/failed-assert site. -/
inductive ExpectErr
  | shortData
  | payloadMismatch
  | crcMismatch
deriving DecidableEq, Repr

/-- Model of the checking tail of `expect_setup(epaddr, expected_data)`
(lines 240-246): `actual_read` is whatever byte list the register polling
loops produced.  Fail if fewer than 2 bytes; otherwise split off the last
two bytes, compare the front against `expected_data` (line 245), then
compare the tail against `crc16(expected_data)` (line 246). -/
def expect_setup_check (expected_data actual_read : List Nat) : Except ExpectErr Unit :=
  if actual_read.length < 2 then Except.error ExpectErr.shortData
  else
    let actual_data := actual_read.take (actual_read.length - 2)
    let actual_crc16 := actual_read.drop (actual_read.length - 2)
    if actual_data = expected_data then
      if actual_crc16 = crc16 expected_data then Except.ok ()
      else Except.error ExpectErr.crcMismatch
    else Except.error ExpectErr.payloadMismatch

/-- Model of the checking tail of `expect_data(epaddr, expected_data)`
(lines 271-277), byte-for-byte the same logic as `expect_setup_check`. -/
def expect_data_check (expected_data actual_read : List Nat) : Except ExpectErr Unit :=
  if actual_read.length < 2 then Except.error ExpectErr.shortData
  else
    let actual_data := actual_read.take (actual_read.length - 2)
    let actual_crc16 := actual_read.drop (actual_read.length - 2)
    if actual_data = expected_data then
      if actual_crc16 = crc16 expected_data then Except.ok ()
      else Except.error ExpectErr.crcMismatch
    else Except.error ExpectErr.payloadMismatch

/-- Setup payload of `test_control_transfer_out` (line 396). -/
def examplePayloadSetup : List Nat :=
  [0x80, 0x06, 0x00, 0x06, 0x00, 0x00, 0x0A, 0x00]

/-- Descriptor payload of `test_control_transfer_out` (lines 398-399). -/
def examplePayloadDesc : List Nat :=
  [0x00, 0x01, 0x02, 0x03, 0x04, 0x05, 0x06, 0x07, 0x08, 0x09, 0x0A, 0x0B]

/-- Constant-high D+ line used as a concrete SE1 scenario. -/
def seDp : Nat → Bool := fun _ => true

/-- Constant-high D- line used as a concrete SE1 scenario. -/
def seDn : Nat → Bool := fun _ => true

/-- Transmit-enable asserted only at tick 0, for the SE1 scenario. -/
def seTx : Nat → Bool := fun t => decide (t = 0)

/-- Transmit-enable asserted on ticks 3 to 5, for the recording witness. -/
def wTx : Nat → Bool := fun t => decide (3 ≤ t ∧ t < 6)

/-- Transmit-enable first asserted at tick 100: never during the wait loop's
100 polls, but high at the line-180 live re-read. -/
def lateTx : Nat → Bool := fun t => decide (100 ≤ t)

/-- Concrete framed body of an OUT token to address 20, endpoint 0, used as a
witness input for the end-in-idle property. -/
def c4_token_example : List Bool :=
  match token_packet PID.OUT 20 0 with
  | Except.ok b => b
  | Except.error _ => []

/-- Toggling always lands in {DATA0, DATA1}. -/
lemma toggle_mem (d : PID) : toggle d = PID.DATA0 ∨ toggle d = PID.DATA1 := by
  unfold toggle
  split <;> simp

/-- Toggling twice is the identity on {DATA0, DATA1}. -/
lemma toggle_toggle (d : PID) (hd : d = PID.DATA0 ∨ d = PID.DATA1) :
    toggle (toggle d) = d := by
  rcases hd with rfl | rfl <;> rfl

/-- Bridge from an indexing fact stated with `getElem?` to one about `get`. -/
lemma option_proj_eq {α β : Type} (f : α → β) {l : List α} {i : Nat}
    (h : i < l.length) {v : β} (hm : (l[i]?).map f = some v) :
    f (l.get ⟨i, h⟩) = v := by
  rw [List.getElem?_eq_getElem h] at hm
  simpa using hm

/-- One loop entry per chunk in `transaction_data_out`. -/
lemma data_out_go_length (d : PID) (chunks : List (List Nat)) :
    (data_out_go d chunks).length = chunks.length := by
  induction chunks generalizing d with
  | nil => rfl
  | cons c cs ih => simp [data_out_go, ih]

/-- One loop entry per chunk in `transaction_data_in`. -/
lemma data_in_go_length (ep : Nat) (data : List Nat) (d : PID)
    (chunks : List (List Nat)) :
    (data_in_go ep data d chunks).length = chunks.length := by
  induction chunks generalizing d with
  | nil => rfl
  | cons c cs ih => simp [data_in_go, ih]

/-- PID of the i-th `transaction_data_out` iteration: starting from a data
PID `d`, the loop alternates `d`, `toggle d`, `d`, …. -/
lemma data_out_go_fst (chunks : List (List Nat)) :
    ∀ (d : PID), d = PID.DATA0 ∨ d = PID.DATA1 → ∀ (i : Nat), i < chunks.length →
      ((data_out_go d chunks)[i]?).map Prod.fst =
        some (if i % 2 = 0 then d else toggle d) := by
  induction chunks with
  | nil =>
    intro d hd i h
    simp at h
  | cons c cs ih =>
    intro d hd i h
    cases i with
    | zero => simp [data_out_go]
    | succ j =>
      have hj : j < cs.length := by
        simp at h
        omega
      have hrec := ih (toggle d) (toggle_mem d) j hj
      simp only [data_out_go, List.getElem?_cons_succ]
      rw [hrec]
      rcases Nat.mod_two_eq_zero_or_one j with hj2 | hj2
      · have h1 : (j + 1) % 2 = 1 := by omega
        simp [hj2, h1]
      · have h0 : (j + 1) % 2 = 0 := by omega
        simp [hj2, h0, toggle_toggle d hd]

/-- PID of the i-th `transaction_data_in` iteration, same alternation. -/
lemma data_in_go_fst (ep : Nat) (data : List Nat) (chunks : List (List Nat)) :
    ∀ (d : PID), d = PID.DATA0 ∨ d = PID.DATA1 → ∀ (i : Nat), i < chunks.length →
      ((data_in_go ep data d chunks)[i]?).map Prod.fst =
        some (if i % 2 = 0 then d else toggle d) := by
  induction chunks with
  | nil =>
    intro d hd i h
    simp at h
  | cons c cs ih =>
    intro d hd i h
    cases i with
    | zero => simp [data_in_go]
    | succ j =>
      have hj : j < cs.length := by
        simp at h
        omega
      have hrec := ih (toggle d) (toggle_mem d) j hj
      simp only [data_in_go, List.getElem?_cons_succ]
      rw [hrec]
      rcases Nat.mod_two_eq_zero_or_one j with hj2 | hj2
      · have h1 : (j + 1) % 2 = 1 := by omega
        simp [hj2, h1]
      · have h0 : (j + 1) % 2 = 0 := by omega
        simp [hj2, h0, toggle_toggle d hd]

/-- The host-side expectation of the i-th `transaction_data_in` iteration is
exactly the i-th chunk. -/
lemma data_in_go_chunk (ep : Nat) (data : List Nat) (chunks : List (List Nat)) :
    ∀ (d : PID) (i : Nat),
      ((data_in_go ep data d chunks)[i]?).map (fun x => x.2.1) = chunks[i]? := by
  induction chunks with
  | nil =>
    intro d i
    simp [data_in_go]
  | cons c cs ih =>
    intro d i
    cases i with
    | zero => simp [data_in_go]
    | succ j =>
      simp only [data_in_go, List.getElem?_cons_succ]
      exact ih (toggle d) j

/-- The register writes of every `transaction_data_in` iteration are the whole
payload followed by the arming write, independent of the iteration. -/
lemma data_in_go_writes (ep : Nat) (data : List Nat) (chunks : List (List Nat)) :
    ∀ (d : PID) (i : Nat), i < chunks.length →
      ((data_in_go ep data d chunks)[i]?).map (fun x => x.2.2) =
        some (data.map RegWrite.epin_data ++ [RegWrite.epin_epno ep]) := by
  induction chunks with
  | nil =>
    intro d i h
    simp at h
  | cons c cs ih =>
    intro d i h
    cases i with
    | zero => simp [data_in_go, send_data]
    | succ j =>
      have hj : j < cs.length := by
        simp at h
        omega
      simp only [data_in_go, List.getElem?_cons_succ]
      exact ih (toggle d) j hj

/-- The recording loop returns at most `fuel` samples. -/
lemma read_transmission_length_le (dp dn txen : Nat → Bool) :
    ∀ (fuel t : Nat), (read_transmission dp dn txen t fuel).length ≤ fuel := by
  intro fuel
  induction fuel with
  | zero =>
    intro t
    simp [read_transmission]
  | succ f ih =>
    intro t
    by_cases htx : txen (t + 1)
    · have := ih (t + 1)
      simp only [read_transmission, htx, if_true, List.length_cons]
      omega
    · simp [read_transmission, htx]

/-- The recording loop returns at least one sample when it may iterate. -/
lemma read_transmission_length_pos (dp dn txen : Nat → Bool) (fuel t : Nat)
    (h : 0 < fuel) : 0 < (read_transmission dp dn txen t fuel).length := by
  cases fuel with
  | zero => omega
  | succ f => simp [read_transmission]

/-- The recording loop only keeps going while `usb_tx_en` stays asserted:
sample `k + 1` exists only if `txen` was still high one tick after sample
`k` was taken. -/
lemma read_transmission_continue (dp dn txen : Nat → Bool) :
    ∀ (fuel t k : Nat), k + 1 < (read_transmission dp dn txen t fuel).length →
      txen (t + k + 1) = true := by
  intro fuel
  induction fuel with
  | zero =>
    intro t k h
    simp [read_transmission] at h
  | succ f ih =>
    intro t k h
    by_cases htx : txen (t + 1)
    · cases k with
      | zero => simpa using htx
      | succ j =>
        have h2 : j + 1 < (read_transmission dp dn txen (t + 1) f).length := by
          simp only [read_transmission, htx, if_true, List.length_cons] at h
          omega
        have hrec := ih (t + 1) j h2
        have harg : t + (j + 1) + 1 = t + 1 + j + 1 := by omega
        rw [harg]
        exact hrec
    · simp [read_transmission, htx] at h

/-- If the recording loop stopped before exhausting its fuel, it stopped
because `usb_tx_en` read 0 at the tick it stopped on. -/
lemma read_transmission_stop (dp dn txen : Nat → Bool) :
    ∀ (fuel t : Nat), (read_transmission dp dn txen t fuel).length < fuel →
      txen (t + (read_transmission dp dn txen t fuel).length) = false := by
  intro fuel
  induction fuel with
  | zero =>
    intro t h
    omega
  | succ f ih =>
    intro t h
    by_cases htx : txen (t + 1)
    · have hlen : (read_transmission dp dn txen t (f + 1)).length
          = (read_transmission dp dn txen (t + 1) f).length + 1 := by
        simp [read_transmission, htx]
      have h2 : (read_transmission dp dn txen (t + 1) f).length < f := by
        omega
      have hrec := ih (t + 1) h2
      rw [hlen]
      have harg : t + ((read_transmission dp dn txen (t + 1) f).length + 1)
          = t + 1 + (read_transmission dp dn txen (t + 1) f).length := by omega
      rw [harg]
      exact hrec
    · have hlen : (read_transmission dp dn txen t (f + 1)).length = 1 := by
        simp [read_transmission, htx]
      rw [hlen]
      simpa using htx

/-- Sample `k` of the recording loop is the decoded line state at tick
`t + k`, whatever symbol (including SE1) it decodes to. -/
lemma read_transmission_sample (dp dn txen : Nat → Bool) :
    ∀ (fuel t k : Nat), k < (read_transmission dp dn txen t fuel).length →
      (read_transmission dp dn txen t fuel)[k]? =
        some (observeSymbol (dp (t + k)) (dn (t + k))) := by
  intro fuel
  induction fuel with
  | zero =>
    intro t k h
    simp [read_transmission] at h
  | succ f ih =>
    intro t k h
    by_cases htx : txen (t + 1)
    · have hunf : read_transmission dp dn txen t (f + 1)
          = observeSymbol (dp t) (dn t) :: read_transmission dp dn txen (t + 1) f := by
        simp [read_transmission, htx]
      cases k with
      | zero =>
        rw [hunf]
        simp
      | succ j =>
        rw [hunf] at h
        have hj : j < (read_transmission dp dn txen (t + 1) f).length := by
          simp at h
          omega
        rw [hunf]
        simp only [List.getElem?_cons_succ]
        rw [ih (t + 1) j hj]
        rw [show t + 1 + j = t + (j + 1) from by omega]
    · have hunf : read_transmission dp dn txen t (f + 1)
          = [observeSymbol (dp t) (dn t)] := by
        simp [read_transmission, htx]
      cases k with
      | zero =>
        rw [hunf]
        simp
      | succ j =>
        rw [hunf] at h
        simp at h

/-- Every wrapped packet ends in the idle symbol `'J'`. -/
lemma wrap_packet_getLast (body : List Bool) :
    (wrap_packet body).getLast? = some 'J' := by
  unfold wrap_packet
  rw [List.flatMap_append _ _ _]
  rw [List.getLast?_append]
  rfl

/-- The end-in-J assertion branch of `_host_send_packet` is unreachable. -/
lemma host_send_packet_model_ne_endNotJ (body : List Bool) :
    host_send_packet_model body ≠ Except.error SendErr.endNotJ := by
  unfold host_send_packet_model
  rw [if_pos (wrap_packet_getLast body)]
  cases hm : (wrap_packet body).mapM driveSymbol <;> simp [hm]

/-- C5: the symbol-to-signal drive mapping and the signal-to-symbol observe
mapping are mutually inverse over {J, K, SE0, SE1}: driving sets (D+, D-) to
J=(1,0), K=(0,1), SE0=(0,0), SE1=(1,1); sampling each pair decodes back to
the same symbol (SE0 written '_'), so observe ∘ drive is the identity on
that alphabet, and drive ∘ observe returns each of the four pairs. -/
theorem c5_drive_observe_inverse :
    (driveSymbol 'J' = some (true, false) ∧ driveSymbol 'K' = some (false, true) ∧
     driveSymbol '_' = some (false, false) ∧ driveSymbol '1' = some (true, true)) ∧
    ((driveSymbol 'J').map (fun p => observeSymbol p.1 p.2) = some 'J' ∧
     (driveSymbol 'K').map (fun p => observeSymbol p.1 p.2) = some 'K' ∧
     (driveSymbol '_').map (fun p => observeSymbol p.1 p.2) = some '_' ∧
     (driveSymbol '1').map (fun p => observeSymbol p.1 p.2) = some '1') ∧
    (driveSymbol (observeSymbol true false) = some (true, false) ∧
     driveSymbol (observeSymbol false true) = some (false, true) ∧
     driveSymbol (observeSymbol false false) = some (false, false) ∧
     driveSymbol (observeSymbol true true) = some (true, true)) := by
  decide

/-- C6: a control-transfer-out to address 20 with the example 8-byte SETUP
payload and the 12-byte descriptor payload, at the default 8-byte chunk
size, performs exactly: the DATA0 Setup stage, two data-stage chunks — the
first with the 8 leading payload bytes under DATA0, the second with the
remaining 4 bytes zero-padded to 8 under DATA1 — and a zero-length DATA1
status IN transaction. -/
theorem c6_control_transfer_out_example :
    control_transfer_out 20 examplePayloadSetup examplePayloadDesc =
      [Txn.setup 20 PID.DATA0 examplePayloadSetup,
       Txn.dataOut 20 PID.DATA0 [0x00, 0x01, 0x02, 0x03, 0x04, 0x05, 0x06, 0x07],
       Txn.dataOut 20 PID.DATA1 [0x08, 0x09, 0x0A, 0x0B, 0, 0, 0, 0],
       Txn.statusIn 20 PID.DATA1 []] := by
  decide

/-- C2 (counterexample): the Setup stage uses DATA0, but the first data-stage
chunk of a control transfer also carries DATA0 — `transaction_data_out`
resets its toggle to DATA0 — whereas continuing the toggle from the Setup
stage's DATA0 would give DATA1.  The claim that the first data-stage chunk
carries the continued (not freshly reset) toggle state is therefore false
on the 12-byte descriptor example. -/
theorem c2_counterexample :
    transaction_setup_data01 = PID.DATA0 ∧
    (transaction_data_out_iters examplePayloadDesc 8).map Prod.fst =
      [PID.DATA0, PID.DATA1] ∧
    toggle transaction_setup_data01 = PID.DATA1 ∧
    PID.DATA0 ≠ PID.DATA1 := by
  decide

/-- C3 (counterexample): with both differential lines constantly high (SE1)
and a one-tick transmission, `host_expect_packet` records the SE1 sample as
the ordinary symbol '1' and returns it successfully — it does not fail at
sampling time, contradicting the claim that observing (1, 1) always fails
with an IllegalLineState error. -/
theorem c3_counterexample :
    seDp 0 = true ∧ seDn 0 = true ∧ observeSymbol true true = '1' ∧
    host_expect_packet seTx seDp seDn = Except.ok ['1'] := by
  refine ⟨rfl, rfl, rfl, ?_⟩
  unfold host_expect_packet
  rw [show wait_tx_start seTx = some 0 from rfl]
  norm_num [bit_time_max]
  rfl

/-- Sanity check matching the doctest of `grouper` (lines 21-22). -/
lemma grouper_docstring_example :
    grouper 3 ['a', 'b', 'c', 'd', 'e', 'f', 'g'] 'x' =
      [['a', 'b', 'c'], ['d', 'e', 'f'], ['g', 'x', 'x']] := by
  decide

/-- Unfolding of `host_expect_packet` once the wait loop has found a start
tick `s`. -/
lemma host_expect_packet_eq_some (txen dp dn : Nat → Bool) (s : Nat)
    (hw : wait_tx_start txen = some s) :
    host_expect_packet txen dp dn =
      (if (s : ℚ) / 4 > bit_time_max then
        Except.error HostExpectErr.turnaroundTimeout
      else
        if txen (s + (read_transmission dp dn txen s 512).length) then
          Except.error HostExpectErr.packetDidntFinish
        else Except.ok (read_transmission dp dn txen s 512)) := by
  unfold host_expect_packet
  rw [hw]

/-- Unfolding of `host_expect_packet` when the wait loop never saw
`usb_tx_en` asserted. -/
lemma host_expect_packet_eq_none (txen dp dn : Nat → Bool)
    (hw : wait_tx_start txen = none) :
    host_expect_packet txen dp dn = Except.error HostExpectErr.noTransmission := by
  unfold host_expect_packet
  rw [hw]

/-- C1: once transmission starts, the elapsed wait of `host_expect_packet` is
the tick count divided by 4, classified against two thresholds: at most 7.5
bit-times is nominal, more than 7.5 and at most 12.5 is a non-fatal warning,
and strictly more than 12.5 fails fatally with the turnaround timeout —
`host_expect_packet` raises the fatal error exactly when the start tick
exceeds 12.5 bit-times. -/
theorem c1_turnaround_classification (n : Nat) (txen dp dn : Nat → Bool) :
    (classify_turnaround n = TurnaroundClass.nominal ↔ (n : ℚ) / 4 ≤ 7.5) ∧
    (classify_turnaround n = TurnaroundClass.warn ↔
      ((7.5 : ℚ) < (n : ℚ) / 4 ∧ (n : ℚ) / 4 ≤ 12.5)) ∧
    (classify_turnaround n = TurnaroundClass.fatal ↔ (12.5 : ℚ) < (n : ℚ) / 4) ∧
    (host_expect_packet txen dp dn = Except.error HostExpectErr.turnaroundTimeout ↔
      ∃ s, wait_tx_start txen = some s ∧ (12.5 : ℚ) < (s : ℚ) / 4) := by
  have hbm : bit_time_max = (12.5 : ℚ) := rfl
  have hba : bit_time_acceptable = (7.5 : ℚ) := rfl
  refine ⟨?_, ?_, ?_, ?_⟩
  · unfold classify_turnaround
    rw [hbm, hba]
    split_ifs with h1 h2
    · constructor
      · intro hcls
        exact absurd hcls (by decide)
      · intro hle
        exfalso
        linarith
    · constructor
      · intro hcls
        exact absurd hcls (by decide)
      · intro hle
        exfalso
        linarith
    · constructor
      · intro hcls
        exact not_lt.mp h2
      · intro hle
        rfl
  · unfold classify_turnaround
    rw [hbm, hba]
    split_ifs with h1 h2
    · constructor
      · intro hcls
        exact absurd hcls (by decide)
      · rintro ⟨ha, hb⟩
        exfalso
        linarith
    · constructor
      · intro hcls
        exact ⟨h2, not_lt.mp h1⟩
      · intro hcond
        rfl
    · constructor
      · intro hcls
        exact absurd hcls (by decide)
      · rintro ⟨ha, hb⟩
        exact absurd ha h2
  · unfold classify_turnaround
    rw [hbm, hba]
    split_ifs with h1 h2
    · constructor
      · intro hcls
        exact h1
      · intro hcond
        rfl
    · constructor
      · intro hcls
        exact absurd hcls (by decide)
      · intro hcond
        exact absurd hcond h1
    · constructor
      · intro hcls
        exact absurd hcls (by decide)
      · intro hcond
        exact absurd hcond h1
  · cases hw : wait_tx_start txen with
    | none =>
      rw [host_expect_packet_eq_none txen dp dn hw]
      constructor
      · intro hcls
        exact absurd (Except.error.inj hcls) (by decide)
      · rintro ⟨s, hs, hq⟩
        exact Option.noConfusion hs
    | some s =>
      rw [host_expect_packet_eq_some txen dp dn s hw, hbm]
      split_ifs with hq htx
      · constructor
        · intro hcls
          exact ⟨s, rfl, hq⟩
        · intro hcond
          rfl
      · constructor
        · intro hcls
          exact absurd (Except.error.inj hcls) (by decide)
        · rintro ⟨s2, hs2, hq2⟩
          rw [Option.some.inj hs2] at hq
          exact absurd hq2 hq
      · constructor
        · intro hcls
          simp at hcls
        · rintro ⟨s2, hs2, hq2⟩
          rw [Option.some.inj hs2] at hq
          exact absurd hq2 hq

/-- C9 (counterexample): with transmit-enable never asserted during the wait
loop's 100 polls (ticks 0..99) but high at tick 100, `host_expect_packet`
does not fail with the no-transmission error: the line-180 live re-read of
the `usb_tx_en` handle accepts the start with `bit_times = 100` (25
bit-times) and the fatal turnaround failure fires instead.  This refutes
the claimed equivalence between the no-transmission failure and
"transmit-enable never asserted within those 100 polls". -/
theorem c9_counterexample :
    (List.range 100).any lateTx = false ∧
    host_expect_packet lateTx seDp seDn =
      Except.error HostExpectErr.turnaroundTimeout ∧
    HostExpectErr.turnaroundTimeout ≠ HostExpectErr.noTransmission := by
  refine ⟨by decide, ?_, by decide⟩
  rw [host_expect_packet_eq_some lateTx seDp seDn 100 (by rfl)]
  norm_num [bit_time_max]

/-- C9 (amended): `host_expect_packet` fails with the no-transmission error
exactly when `usb_tx_en` is not asserted at any of ticks 0..100 — the 100
polls of the wait loop plus the line-180 re-read of the live signal handle
at tick 100 after an exhausted loop; once a start tick `s` is found, the
recording loop keeps at most 512 samples, keeps at least one, continues
past a sample only while `usb_tx_en` stayed asserted, and when it stops
before exhausting 512 samples it is because `usb_tx_en` read 0 at the
stopping tick. -/
theorem c9_polling_bounds (txen dp dn : Nat → Bool) :
    (host_expect_packet txen dp dn = Except.error HostExpectErr.noTransmission ↔
      ∀ i, i < 101 → txen i = false) ∧
    (∀ s, wait_tx_start txen = some s →
      (read_transmission dp dn txen s 512).length ≤ 512 ∧
      0 < (read_transmission dp dn txen s 512).length ∧
      (∀ k, k + 1 < (read_transmission dp dn txen s 512).length →
        txen (s + k + 1) = true) ∧
      ((read_transmission dp dn txen s 512).length < 512 →
        txen (s + (read_transmission dp dn txen s 512).length) = false)) := by
  constructor
  · constructor
    · intro h
      intro i hi
      cases hw : wait_tx_start txen with
      | none =>
        unfold wait_tx_start at hw
        cases hfind : (List.range 100).find? txen with
        | some j =>
          rw [hfind] at hw
          exact Option.noConfusion hw
        | none =>
          rw [hfind] at hw
          by_cases h100 : txen 100
          · rw [if_pos h100] at hw
            exact Option.noConfusion hw
          · rcases Nat.lt_or_ge i 100 with hlt | hge
            · have hnone := List.find?_eq_none.mp hfind i (List.mem_range.mpr hlt)
              simpa using hnone
            · have hi100 : i = 100 := by omega
              subst hi100
              simpa using h100
      | some s =>
        exfalso
        rw [host_expect_packet_eq_some txen dp dn s hw] at h
        revert h
        split_ifs with hq htx
        · intro h
          exact absurd (Except.error.inj h) (by decide)
        · intro h
          exact absurd (Except.error.inj h) (by decide)
        · intro h
          simp at h
    · intro hall
      have hfind : (List.range 100).find? txen = none := by
        rw [List.find?_eq_none]
        intro x hx
        have hxlt := List.mem_range.mp hx
        have hx2 := hall x (by omega)
        simp [hx2]
      have h100 : txen 100 = false := hall 100 (by omega)
      have hw : wait_tx_start txen = none := by
        unfold wait_tx_start
        rw [hfind, if_neg (by simp [h100])]
      exact host_expect_packet_eq_none txen dp dn hw
  · intro s hws
    refine ⟨read_transmission_length_le dp dn txen 512 s, ?_, ?_, ?_⟩
    · exact read_transmission_length_pos dp dn txen 512 s (by omega)
    · intro k hk
      exact read_transmission_continue dp dn txen 512 s k hk
    · intro hlt
      exact read_transmission_stop dp dn txen 512 s hlt

/-- C9 (witness): with `usb_tx_en` asserted on ticks 3..5, the wait loop finds
the start at tick 3 and the recording bounds of the claim hold there. -/
theorem c9_witness :
    wait_tx_start wTx = some 3 ∧
    (read_transmission seDp seDn wTx 3 512).length ≤ 512 := by
  constructor
  · rfl
  · exact ((c9_polling_bounds wTx seDp seDn).2 3 (by rfl)).1

/-- C2 (amended): in a control transfer, the DATA0/DATA1 toggle starts at
DATA0 for the Setup stage's data packet and alternates strictly per chunk
within the data stage, but the data stage restarts the toggle at DATA0
(`transaction_data_out` resets `datax = PID.DATA0`) rather than continuing
it from the Setup stage; the Status stage uses the fixed DATA1. -/
theorem c2_toggle_amended (addr : Nat) (setup_data descriptor_data : List Nat)
    (i : Nat) (h : i < (transaction_data_out_iters descriptor_data 8).length) :
    (control_transfer_out addr setup_data descriptor_data).head? =
      some (Txn.setup addr PID.DATA0 setup_data) ∧
    ((transaction_data_out_iters descriptor_data 8).get ⟨i, h⟩).1 =
      (if i % 2 = 0 then PID.DATA0 else PID.DATA1) ∧
    (control_transfer_out addr setup_data descriptor_data).getLast? =
      some (Txn.statusIn addr PID.DATA1 []) := by
  refine ⟨rfl, ?_, ?_⟩
  · have hch : i < (grouper 8 descriptor_data 0).length := by
      have hlen := data_out_go_length PID.DATA0 (grouper 8 descriptor_data 0)
      unfold transaction_data_out_iters at h
      omega
    have hm := data_out_go_fst (grouper 8 descriptor_data 0) PID.DATA0 (Or.inl rfl) i hch
    rw [show toggle PID.DATA0 = PID.DATA1 from rfl] at hm
    exact option_proj_eq Prod.fst h hm
  · show ((Txn.setup addr transaction_setup_data01 setup_data
        :: (transaction_data_out_iters descriptor_data 8).map
             (fun pc => Txn.dataOut addr pc.1 pc.2))
        ++ [Txn.statusIn addr transaction_status_in_data01 []]).getLast? = _
    rw [List.getLast?_concat]
    rfl

/-- C2 (witness): the amended toggle facts at the example control transfer. -/
theorem c2_witness :
    0 < (transaction_data_out_iters examplePayloadDesc 8).length ∧
    ((transaction_data_out_iters examplePayloadDesc 8).get ⟨0, by decide⟩).1 =
      PID.DATA0 ∧
    (control_transfer_out 20 examplePayloadSetup examplePayloadDesc).getLast? =
      some (Txn.statusIn 20 PID.DATA1 []) := by
  have h := c2_toggle_amended 20 examplePayloadSetup examplePayloadDesc 0 (by decide)
  exact ⟨by decide, by simpa using h.2.1, h.2.2⟩

/-- C3 (amended): a sampled SE1 pair (1, 1) decodes to the ordinary symbol
'1', and every sample recorded by the observation loop — SE1 included — is
stored in the decoded sequence at its position; no error is raised at
sampling time. -/
theorem c3_se1_recorded_amended :
    observeSymbol true true = '1' ∧
    ∀ (dp dn txen : Nat → Bool) (t fuel k : Nat)
      (h : k < (read_transmission dp dn txen t fuel).length),
      (read_transmission dp dn txen t fuel).get ⟨k, h⟩ =
        observeSymbol (dp (t + k)) (dn (t + k)) := by
  refine ⟨rfl, ?_⟩
  intro dp dn txen t fuel k h
  have hm := read_transmission_sample dp dn txen fuel t k h
  rw [List.getElem?_eq_getElem h] at hm
  rw [List.get_eq_getElem]
  exact Option.some.inj hm

/-- C3 (witness): on the all-ones line scenario, sample 0 of the recording is
the symbol '1'. -/
theorem c3_witness :
    0 < (read_transmission seDp seDn seTx 0 512).length ∧
    (read_transmission seDp seDn seTx 0 512).get ⟨0, by decide⟩ = '1' := by
  constructor
  · decide
  · have h := c3_se1_recorded_amended.2 seDp seDn seTx 0 512 0 (by decide)
    simpa [seDp, seDn, observeSymbol] using h

/-- C4: every wrapped packet ends in the idle symbol 'J', so the end-in-J
assertion of `_host_send_packet` never fires; in particular its failure
branch is unreachable for bodies built by `token_packet`, `data_packet`,
`handshake_packet`, or `sof_packet`. -/
theorem c4_wrap_ends_in_idle :
    (∀ body : List Bool, (wrap_packet body).getLast? = some 'J') ∧
    (∀ (p : PID) (a e : Nat) (body : List Bool),
      token_packet p a e = Except.ok body →
        host_send_packet_model body ≠ Except.error SendErr.endNotJ) ∧
    (∀ (p : PID) (d : List Nat) (body : List Bool),
      data_packet p d = Except.ok body →
        host_send_packet_model body ≠ Except.error SendErr.endNotJ) ∧
    (∀ (p : PID) (body : List Bool),
      handshake_packet p = Except.ok body →
        host_send_packet_model body ≠ Except.error SendErr.endNotJ) ∧
    (∀ (f : Nat) (body : List Bool),
      sof_packet f = Except.ok body →
        host_send_packet_model body ≠ Except.error SendErr.endNotJ) := by
  refine ⟨wrap_packet_getLast, ?_, ?_, ?_, ?_⟩
  · intro p a e body hbuild
    exact host_send_packet_model_ne_endNotJ body
  · intro p d body hbuild
    exact host_send_packet_model_ne_endNotJ body
  · intro p body hbuild
    exact host_send_packet_model_ne_endNotJ body
  · intro f body hbuild
    exact host_send_packet_model_ne_endNotJ body

/-- C4 (witness): a concrete OUT token builds successfully and the end-in-J
assertion branch is not taken for it. -/
theorem c4_witness :
    token_packet PID.OUT 20 0 = Except.ok c4_token_example ∧
    host_send_packet_model c4_token_example ≠ Except.error SendErr.endNotJ := by
  refine ⟨rfl, ?_⟩
  exact c4_wrap_ends_in_idle.2.1 PID.OUT 20 0 c4_token_example rfl

/-- C7: in both chunked data-stage directions, the i-th chunk (zero-based)
carries DATA0 when i is even and DATA1 when i is odd, for every payload and
chunk size. -/
theorem c7_data_pid_alternation (data : List Nat) (chunk_size ep i : Nat)
    (ho : i < (transaction_data_out_iters data chunk_size).length)
    (hi : i < (transaction_data_in_iters ep data chunk_size).length) :
    ((transaction_data_out_iters data chunk_size).get ⟨i, ho⟩).1 =
      (if i % 2 = 0 then PID.DATA0 else PID.DATA1) ∧
    ((transaction_data_in_iters ep data chunk_size).get ⟨i, hi⟩).1 =
      (if i % 2 = 0 then PID.DATA0 else PID.DATA1) := by
  constructor
  · have hch : i < (grouper chunk_size data 0).length := by
      have hlen := data_out_go_length PID.DATA0 (grouper chunk_size data 0)
      unfold transaction_data_out_iters at ho
      omega
    have hm := data_out_go_fst (grouper chunk_size data 0) PID.DATA0 (Or.inl rfl) i hch
    rw [show toggle PID.DATA0 = PID.DATA1 from rfl] at hm
    exact option_proj_eq Prod.fst ho hm
  · have hch : i < (grouper chunk_size data 0).length := by
      have hlen := data_in_go_length ep data PID.DATA0 (grouper chunk_size data 0)
      unfold transaction_data_in_iters at hi
      omega
    have hm := data_in_go_fst ep data (grouper chunk_size data 0) PID.DATA0 (Or.inl rfl) i hch
    rw [show toggle PID.DATA0 = PID.DATA1 from rfl] at hm
    exact option_proj_eq Prod.fst hi hm

/-- C7 (witness): for the example 12-byte payload at chunk size 8, chunk 1
carries DATA1 in both directions. -/
theorem c7_witness :
    1 < (transaction_data_out_iters examplePayloadDesc 8).length ∧
    ((transaction_data_out_iters examplePayloadDesc 8).get ⟨1, by decide⟩).1 =
      PID.DATA1 ∧
    ((transaction_data_in_iters 0 examplePayloadDesc 8).get ⟨1, by decide⟩).1 =
      PID.DATA1 := by
  have h := c7_data_pid_alternation examplePayloadDesc 8 0 1 (by decide) (by decide)
  exact ⟨by decide, by simpa using h.1, by simpa using h.2⟩

/-- C8: both register-mediated read checks fail whenever fewer than 2 bytes
were produced; otherwise they split off the last two bytes, compare the
front against the expected payload, and separately compare the two trailing
bytes against `crc16` of the expected payload, reporting a CRC mismatch as
a failure distinct from a payload mismatch. -/
theorem c8_expect_crc_check (expected_data payload tail actual_read : List Nat) :
    (actual_read.length < 2 →
      expect_setup_check expected_data actual_read = Except.error ExpectErr.shortData ∧
      expect_data_check expected_data actual_read = Except.error ExpectErr.shortData) ∧
    (tail.length = 2 →
      (expect_setup_check expected_data (payload ++ tail) = Except.ok () ↔
        (payload = expected_data ∧ tail = crc16 expected_data)) ∧
      (payload = expected_data → tail ≠ crc16 expected_data →
        expect_setup_check expected_data (payload ++ tail) =
          Except.error ExpectErr.crcMismatch) ∧
      (payload ≠ expected_data →
        expect_setup_check expected_data (payload ++ tail) =
          Except.error ExpectErr.payloadMismatch) ∧
      expect_data_check expected_data (payload ++ tail) =
        expect_setup_check expected_data (payload ++ tail)) ∧
    ExpectErr.crcMismatch ≠ ExpectErr.payloadMismatch := by
  refine ⟨?_, ?_, by decide⟩
  · intro h
    constructor
    · unfold expect_setup_check
      rw [if_pos h]
    · unfold expect_data_check
      rw [if_pos h]
  · intro ht
    have hlen : (payload ++ tail).length = payload.length + 2 := by simp [ht]
    have hn2 : ¬ ((payload ++ tail).length < 2) := by omega
    have hsub : (payload ++ tail).length - 2 = payload.length := by omega
    have htake : (payload ++ tail).take ((payload ++ tail).length - 2) = payload := by
      rw [hsub]
      exact List.take_left payload tail
    have hdrop : (payload ++ tail).drop ((payload ++ tail).length - 2) = tail := by
      rw [hsub]
      exact List.drop_left payload tail
    refine ⟨?_, ?_, ?_, rfl⟩
    · unfold expect_setup_check
      rw [if_neg hn2, htake, hdrop]
      dsimp only
      split_ifs with h1 h2
      · simp [h1, h2]
      · simp [h1, h2]
      · simp [h1]
    · intro h1 h2
      unfold expect_setup_check
      rw [if_neg hn2, htake, hdrop]
      dsimp only
      rw [if_pos h1, if_neg h2]
    · intro h1
      unfold expect_setup_check
      rw [if_neg hn2, htake, hdrop]
      dsimp only
      rw [if_neg h1]

/-- C8 (witness): a well-formed 2-byte payload followed by its CRC16 passes
the check, and a read of fewer than 2 bytes fails as short. -/
theorem c8_witness :
    expect_setup_check [1, 2] ([1, 2] ++ crc16 [1, 2]) = Except.ok () ∧
    expect_setup_check [1, 2] [] = Except.error ExpectErr.shortData := by
  constructor
  · exact ((c8_expect_crc_check [1, 2] [1, 2] (crc16 [1, 2]) []).2.1
      (by decide)).1.mpr ⟨rfl, rfl⟩
  · exact ((c8_expect_crc_check [1, 2] [1, 2] (crc16 [1, 2]) []).1 (by decide)).1

/-- C10: on every chunk iteration of `transaction_data_in`, the register
writes are the entire original payload written byte-by-byte to `epin_data`
followed by the arming `epin_epno` write — not just the current chunk —
while the host-side expectation of the same iteration is only the single
(possibly zero-padded) chunk. -/
theorem c10_full_payload_written (ep : Nat) (data : List Nat) (chunk_size i : Nat)
    (h : i < (transaction_data_in_iters ep data chunk_size).length) :
    ((transaction_data_in_iters ep data chunk_size).get ⟨i, h⟩).2.2 =
      data.map RegWrite.epin_data ++ [RegWrite.epin_epno ep] ∧
    (grouper chunk_size data 0)[i]? =
      some (((transaction_data_in_iters ep data chunk_size).get ⟨i, h⟩).2.1) := by
  have hch : i < (grouper chunk_size data 0).length := by
    have hlen := data_in_go_length ep data PID.DATA0 (grouper chunk_size data 0)
    unfold transaction_data_in_iters at h
    omega
  constructor
  · have hm : ((transaction_data_in_iters ep data chunk_size)[i]?).map
        (fun x => x.2.2) =
        some (data.map RegWrite.epin_data ++ [RegWrite.epin_epno ep]) :=
      data_in_go_writes ep data (grouper chunk_size data 0) PID.DATA0 i hch
    exact option_proj_eq (fun x => x.2.2) h hm
  · have hm : ((transaction_data_in_iters ep data chunk_size)[i]?).map
        (fun x => x.2.1) = (grouper chunk_size data 0)[i]? :=
      data_in_go_chunk ep data (grouper chunk_size data 0) PID.DATA0 i
    rw [List.getElem?_eq_getElem h] at hm
    rw [List.get_eq_getElem]
    simpa using hm.symm

/-- C10 (witness): at the example 12-byte payload, iteration 1 writes all 12
bytes (plus the arming write) although the host expects only the 8-byte
zero-padded second chunk, which differs from the payload. -/
theorem c10_witness :
    1 < (transaction_data_in_iters 0 examplePayloadDesc 8).length ∧
    ((transaction_data_in_iters 0 examplePayloadDesc 8).get ⟨1, by decide⟩).2.2 =
      examplePayloadDesc.map RegWrite.epin_data ++ [RegWrite.epin_epno 0] ∧
    ((transaction_data_in_iters 0 examplePayloadDesc 8).get ⟨1, by decide⟩).2.1 ≠
      examplePayloadDesc := by
  have h := c10_full_payload_written 0 examplePayloadDesc 8 1 (by decide)
  exact ⟨by decide, h.1, by decide⟩
